import Mathlib

/-!
Verification of the send2ereader ephemeral code-to-file registry.

Two source variants are embedded:
- the Oak variant (`src/index.js`), here the `Js` model: sessions map codes
  to an `info` record holding an optional on-disk file; the blob store is
  the upload directory (a set of paths);
- the plain-router variant (`src/unnamed/part_000`), here the `Part` model:
  sessions map codes to an `info` record holding an optional `fileId`; the
  blob store is the in-memory `files` map.

JavaScript `Map` objects are embedded as association lists with `Map.set`,
`Map.get`, `Map.has` and `Map.delete` semantics.
-/

namespace Send2Ereader

/-- Configuration constants shared by both variants. -/
def expireDelay : Nat := 30

def maxExpireDuration : Nat := 1 * 60 * 60

def maxFileSize : Nat := 1024 * 1024 * 800

def TYPE_EPUB : String := "application/epub+zip"

def TYPE_MOBI : String := "application/x-mobipocket-ebook"

def allowedTypes : List String :=
  [TYPE_EPUB, TYPE_MOBI, "application/pdf", "application/vnd.comicbook+zip",
   "application/vnd.comicbook-rar", "text/html", "text/plain",
   "application/zip", "application/x-rar-compressed"]

def allowedExtensions : List String :=
  ["epub", "mobi", "pdf", "cbz", "cbr", "html", "txt"]

def keyChars : String := "23456789ACDEFGHJKLMNPRSTUVWXYZ"

def keyLength : Nat := 4

/-- `Math.pow(keyChars.length, keyLength)` in `randomKey`. -/
def choices : Nat := keyChars.length ^ keyLength

/-! ## Key generator

`randomKey` in both variants:
```
const rnd = Math.floor(Math.random() * choices);
return rnd.toString(keyChars.length)
  .padStart(keyLength, '0')
  .split('')
  .map((chr) => keyChars[parseInt(chr, keyChars.length)])
  .join('');
```
`Number.prototype.toString(radix)` renders in base `radix` with the digit
characters 0-9a-z; `parseInt(chr, radix)` maps a single digit character
back to its value. -/

/-- The JavaScript digit characters used by `Number.prototype.toString`. -/
def jsDigitChars : List Char := "0123456789abcdefghijklmnopqrstuvwxyz".toList

/-- Digit character for value `d` (as produced by `toString(radix)`). -/
def digitChar (d : Nat) : Char := jsDigitChars.getD d '0'

/-- `parseInt(chr, radix)` on a single digit character: its digit value. -/
def digitVal (c : Char) : Nat := jsDigitChars.indexOf c

/-- `n.toString(b)`: the base-`b` rendering of `n`, most significant digit
first. For a radix outside JavaScript's valid 2..36 range `toString`
throws; that branch is rendered as the empty list. -/
def natToStringBase (b : Nat) (n : Nat) : List Char :=
  if n < b then [digitChar n]
  else if _h : 2 ≤ b then
    natToStringBase b (n / b) ++ [digitChar (n % b)]
  else []
termination_by n
decreasing_by
  simp_wf
  exact Nat.div_lt_self (by omega) (by omega)

/-- `String.prototype.padStart(len, c)` on a character list. -/
def padStart (len : Nat) (c : Char) (l : List Char) : List Char :=
  List.replicate (len - l.length) c ++ l

/-- `randomKey`, parameterised by the alphabet, the code length and the
drawn random number `rnd ∈ [0, |alphabet| ^ len)`. -/
def randomKey (alphabet : List Char) (len : Nat) (rnd : Nat) : String :=
  let b := alphabet.length
  let digits := natToStringBase b rnd
  let padded := padStart len '0' digits
  ⟨padded.map (fun chr => alphabet.getD (digitVal chr) ' ')⟩

/-- `randomKey` at the configured alphabet and length of both variants. -/
def randomKey31 (rnd : Nat) : String := randomKey keyChars.toList keyLength rnd

/-! ## Code allocation loop

Both variants allocate a code with the same loop:
```
let key = null;
let attempts = 0;
do {
  key = randomKey();
  if (attempts > keys.size) { throw 503; }
  attempts++;
} while (keys.has(key));
```
`cand i` is the key produced by the `i`-th call to `randomKey`, `size` is
`keys.size` at entry, `isLive` is `keys.has`. `none` is the 503
service-unavailable outcome. -/
def allocLoop (size : Nat) (isLive : String → Bool) (cand : Nat → String)
    (attempts : Nat) : Option String :=
  let key := cand attempts
  if attempts > size then none
  else if isLive key then allocLoop size isLive cand (attempts + 1)
  else some key
termination_by size + 1 - attempts
decreasing_by
  simp_wf
  omega

/-! ## JavaScript `Map` embedding

Both variants keep their state in `Map` objects (`keys`, and in the
plain-router variant `files`). A `Map` is embedded as an association list;
`mapSet` replaces in place when the key is present, as `Map.set` does. -/

def mapGet {α : Type} (l : List (String × α)) (k : String) : Option α :=
  match l with
  | [] => none
  | (a, v) :: t => if a = k then some v else mapGet t k

def mapHas {α : Type} (l : List (String × α)) (k : String) : Bool :=
  (mapGet l k).isSome

/-- Replace the entry for `k` when `p` is it, used by `mapSet` on a
present key. -/
def setEntry {α : Type} (k : String) (v : α) (p : String × α) : String × α :=
  if p.1 = k then (k, v) else p

def mapSet {α : Type} (l : List (String × α)) (k : String) (v : α) :
    List (String × α) :=
  if mapHas l k then l.map (setEntry k v)
  else (k, v) :: l

def mapDelete {α : Type} (l : List (String × α)) (k : String) :
    List (String × α) :=
  l.filter (fun p => decide (p.1 ≠ k))

/-! ## JavaScript string helpers

The JS string methods the handlers use, embedded structurally over the
character list of the string (the key alphabet and the extension
allow-list are ASCII, where `Char.toUpper`/`Char.toLower` agree with
`toUpperCase`/`toLowerCase`). -/

/-- `String.prototype.toUpperCase`. -/
def toUpperStr (s : String) : String := ⟨s.data.map Char.toUpper⟩

/-- `String.prototype.toLowerCase`. -/
def toLowerStr (s : String) : String := ⟨s.data.map Char.toLower⟩

/-- `String.prototype.split(sep)` for a one-character separator. -/
def splitOnChar (sep : Char) : List Char → List (List Char)
  | [] => [[]]
  | c :: rest =>
    match splitOnChar sep rest with
    | [] => [[]]
    | h :: t => if c = sep then [] :: h :: t else (c :: h) :: t

/-- HTTP outcomes the handlers produce. -/
inductive HttpError where
  | badRequest (msg : String)
  | notFound
  | serviceUnavailable
deriving DecidableEq

/-! ## Plain-router variant (`src/unnamed/part_000`)

State: the `keys` map from code to session info and the in-memory `files`
map (the blob store) from file id to stored file. -/

/-- A stored blob in the `files` map: `{ data, name, type }`. -/
structure PartFile where
  data : List Nat
  name : String
  type : String
deriving DecidableEq

/-- A session record in the `keys` map: `{ created, agent, fileId, urls }`
(the unused `urls` array is omitted). -/
structure PartInfo where
  created : Nat
  agent : String
  fileId : Option String
deriving DecidableEq

structure PartState where
  keys : List (String × PartInfo)
  files : List (String × PartFile)
deriving DecidableEq

/-- `POST /api/generate`. `cand i` is the key from the `i`-th `randomKey()`
call, `now` the clock, `agent` the user-agent header. On success the new
session is inserted (its expiration timer is armed; firing is
`expireCbPart`). -/
def generatePart (st : PartState) (agent : String) (now : Nat)
    (cand : Nat → String) : Except HttpError (String × PartState) :=
  match allocLoop st.keys.length (fun k => mapHas st.keys k) cand 0 with
  | none => .error .serviceUnavailable
  | some key =>
      .ok (key, { st with
        keys := mapSet st.keys key { created := now, agent := agent, fileId := none } })

/-- The `setTimeout` callback armed by `POST /api/generate` for `key`:
```
if (keys.has(key)) {
  const info = keys.get(key);
  if (info.fileId && files.has(info.fileId)) { files.delete(info.fileId); }
  keys.delete(key);
}
```
Note it checks only presence of the key, not identity of the session. -/
def expireCbPart (key : String) (st : PartState) : PartState :=
  match mapGet st.keys key with
  | some info =>
      { keys := mapDelete st.keys key,
        files := match info.fileId with
          | some fid => if mapHas st.files fid then mapDelete st.files fid
                        else st.files
          | none => st.files }
  | none => st

/-- `file.name.split('.').pop()?.toLowerCase()`. -/
def fileExtPart (name : String) : Option String :=
  ((splitOnChar '.' name.data).getLast?).map (fun l => toLowerStr ⟨l⟩)

/-- `POST /api/upload`. `keyIn` is the `key` form field, `fileIn` the
`file` form field, `fileId` the fresh `crypto.randomUUID()`. The source
checks the key, then the file, then the extension; on success it stores
the blob under `fileId` and overwrites `info.fileId` — it does NOT delete
the previously referenced blob from `files`. -/
def uploadPart (st : PartState) (keyIn : Option String) (fileIn : Option PartFile)
    (fileId : String) : Except HttpError Unit × PartState :=
  match keyIn.map toUpperStr with
  | none => (.error (.badRequest "Invalid key"), st)
  | some key =>
    if key.isEmpty then (.error (.badRequest "Invalid key"), st)
    else match mapGet st.keys key with
    | none => (.error (.badRequest "Invalid key"), st)
    | some info =>
      match fileIn with
      | none => (.error (.badRequest "No file uploaded"), st)
      | some file =>
        match fileExtPart file.name with
        | none => (.error (.badRequest "Invalid file type"), st)
        | some fileExt =>
          if fileExt.isEmpty || !(allowedExtensions.contains fileExt) then
            (.error (.badRequest "Invalid file type"), st)
          else
            (.ok (), { keys := mapSet st.keys key { info with fileId := some fileId },
                       files := mapSet st.files fileId
                         { data := file.data, name := file.name, type := file.type } })

/-- `GET /api/download/:key`: resolve the code to the stored blob
(bytes, name, type) or 404. -/
def downloadPart (st : PartState) (key : String) : Except HttpError PartFile :=
  if key.isEmpty then .error .notFound
  else match mapGet st.keys key with
  | none => .error .notFound
  | some info =>
    match info.fileId with
    | none => .error .notFound
    | some fid =>
      match mapGet st.files fid with
      | none => .error .notFound
      | some file => .ok file

/-! ## Oak variant (`src/index.js`)

State: the `keys` map from code to session info, and the set of file paths
present in the `uploads` directory (the blob store of this variant).
Object identity (the `===` check in the expiration callback) is embedded
as a numeric tag `sid` on each info record; callers of `generateJs` pass a
fresh tag, as `{...}` allocates a fresh object. -/

/-- The record `handleUpload` returns and `info.file` stores:
`{ filename, path, type }`. -/
structure JsFile where
  filename : String
  path : String
  type : String
deriving DecidableEq

/-- A session record in the `keys` map: `{ created, agent, file, urls,
timer }` (the unused `urls` and the timer handle are omitted; `sid` is the
object's identity). -/
structure JsInfo where
  created : Nat
  agent : String
  file : Option JsFile
  sid : Nat
deriving DecidableEq

structure JsState where
  keys : List (String × JsInfo)
  uploads : List String
deriving DecidableEq

/-- A multipart file as read from the request: `file.filename` and
`file.contentType` (its byte stream is only copied to disk). -/
structure Upload where
  filename : String
  contentType : String
deriving DecidableEq

/-- `extname(filename)` (Deno std path): the suffix from the last dot of
the base name, `""` when there is no dot or the name is a pure dotfile. -/
def extnameJs (filename : String) : String :=
  match splitOnChar '.' filename.data with
  | [] => ""
  | [_] => ""
  | [] :: [_] => ""
  | parts => ⟨'.' :: (parts.getLast?.getD [])⟩

/-- `extname(file.filename).toLowerCase().slice(1)`. -/
def fileExtJs (filename : String) : String :=
  ⟨((extnameJs filename).data.map Char.toLower).drop 1⟩

/-- `handleUpload(ctx)`: rejects a missing file or a disallowed extension,
otherwise copies the upload to `uploadPath` (the
`crypto.randomUUID()`-prefixed path in `uploads/`) and returns the file
record. The multipart-framing check (`body.type !== "form-data"`) is
transport shape and is outside the model. Note the file is written to
disk here, before the route ever looks at the key. -/
def handleUpload (st : JsState) (fileIn : Option Upload) (uploadPath : String) :
    Except HttpError JsFile × JsState :=
  match fileIn with
  | none => (.error (.badRequest "No file uploaded"), st)
  | some file =>
    if !(allowedExtensions.contains (fileExtJs file.filename)) then
      (.error (.badRequest "Invalid file type"), st)
    else
      (.ok { filename := file.filename, path := uploadPath, type := file.contentType },
       { st with uploads := uploadPath :: st.uploads })

/-- `POST /upload`: run `handleUpload` first, then read and check the
`key` header, then delete the previously bound file from disk
(best-effort) and set `info.file` to the new record. -/
def uploadJs (st : JsState) (fileIn : Option Upload) (uploadPath : String)
    (keyIn : Option String) : Except HttpError Unit × JsState :=
  match handleUpload st fileIn uploadPath with
  | (.error e, st1) => (.error e, st1)
  | (.ok file, st1) =>
    match keyIn.map toUpperStr with
    | none => (.error (.badRequest "Invalid key"), st1)
    | some key =>
      if key.isEmpty then (.error (.badRequest "Invalid key"), st1)
      else match mapGet st1.keys key with
      | none => (.error (.badRequest "Invalid key"), st1)
      | some info =>
        (.ok (), { keys := mapSet st1.keys key { info with file := some file },
                   uploads := match info.file with
                     | some old => st1.uploads.erase old.path
                     | none => st1.uploads })

/-- `POST /generate`. `sid` is the identity of the freshly allocated info
object; the armed timer callback is `expireCbJs key sid`. -/
def generateJs (st : JsState) (agent : String) (now : Nat) (cand : Nat → String)
    (sid : Nat) : Except HttpError (String × JsState) :=
  match allocLoop st.keys.length (fun k => mapHas st.keys k) cand 0 with
  | none => .error .serviceUnavailable
  | some key =>
      .ok (key, { st with
        keys := mapSet st.keys key
          { created := now, agent := agent, file := none, sid := sid } })

/-- The `setTimeout` callback armed by `POST /generate`:
```
if (keys.get(key) === info) {
  keys.delete(key);
  if (info.file?.path) { Deno.removeSync(info.file.path); }
}
```
It acts only when the stored session is identically the one it was armed
for. -/
def expireCbJs (key : String) (sid : Nat) (st : JsState) : JsState :=
  match mapGet st.keys key with
  | some info =>
    if info.sid = sid then
      { keys := mapDelete st.keys key,
        uploads := match info.file with
          | some f => st.uploads.erase f.path
          | none => st.uploads }
    else st
  | none => st

/-- `GET /:filename`: resolve the `key` query parameter to the bound
file's path and download filename, or 404. -/
def downloadJs (st : JsState) (keyIn : Option String) :
    Except HttpError (String × String) :=
  match keyIn with
  | none => .error .notFound
  | some key =>
    if key.isEmpty then .error .notFound
    else match mapGet st.keys key with
    | none => .error .notFound
    | some info =>
      match info.file with
      | none => .error .notFound
      | some file => .ok (file.path, file.filename)

/-! ## Lemmas about the `Map` embedding -/

theorem mapGet_cons_self {α : Type} (a : String) (v : α) (t : List (String × α)) :
    mapGet ((a, v) :: t) a = some v := by
  simp [mapGet]

theorem mapGet_cons_ne {α : Type} (a k : String) (v : α) (t : List (String × α))
    (h : a ≠ k) : mapGet ((a, v) :: t) k = mapGet t k := by
  simp [mapGet, h]

theorem setEntry_self {α : Type} (k : String) (v b : α) : setEntry k v (k, b) = (k, v) := by
  simp [setEntry]

theorem setEntry_ne {α : Type} (a k : String) (v b : α) (h : a ≠ k) :
    setEntry k v (a, b) = (a, b) := by
  simp [setEntry, h]

theorem mapGet_replaceAll {α : Type} (l : List (String × α)) (k k2 : String) (v : α) :
    mapGet (l.map (setEntry k v)) k2 =
      if k2 = k then (mapGet l k).map (fun _ => v) else mapGet l k2 := by
  induction l with
  | nil => simp [mapGet]
  | cons hd tl ih =>
    obtain ⟨a, b⟩ := hd
    rw [List.map_cons]
    by_cases hak : a = k
    · subst hak
      rw [setEntry_self]
      by_cases hk2 : k2 = a
      · subst hk2
        simp [mapGet]
      · simp [mapGet, ih, hk2, Ne.symm hk2]
    · rw [setEntry_ne _ _ _ _ hak]
      by_cases hk2 : k2 = a
      · subst hk2
        simp [mapGet, hak]
      · simp [mapGet, ih, hk2, Ne.symm hk2, hak]

theorem mapGet_mapSet {α : Type} (l : List (String × α)) (k k2 : String) (v : α) :
    mapGet (mapSet l k v) k2 = if k2 = k then some v else mapGet l k2 := by
  unfold mapSet
  by_cases hp : mapHas l k = true
  · rw [if_pos hp, mapGet_replaceAll]
    by_cases hk2 : k2 = k
    · subst hk2
      rw [if_pos rfl, if_pos rfl]
      unfold mapHas at hp
      cases h : mapGet l k2 <;> rw [h] at hp <;> simp_all
    · rw [if_neg hk2, if_neg hk2]
  · rw [if_neg hp]
    by_cases hk2 : k2 = k
    · subst hk2
      simp [mapGet]
    · simp [mapGet, hk2, Ne.symm hk2]

theorem mapGet_mapDelete {α : Type} (l : List (String × α)) (k k2 : String) :
    mapGet (mapDelete l k) k2 = if k2 = k then none else mapGet l k2 := by
  induction l with
  | nil => simp [mapDelete, mapGet]
  | cons hd tl ih =>
    obtain ⟨a, b⟩ := hd
    unfold mapDelete at ih ⊢
    by_cases hak : a = k
    · subst hak
      rw [List.filter_cons_of_neg (by simp), ih]
      by_cases hk2 : k2 = a
      · subst hk2
        simp
      · simp [mapGet, hk2, Ne.symm hk2]
    · rw [List.filter_cons_of_pos (by simp [hak])]
      by_cases hk2 : k2 = a
      · subst hk2
        simp [mapGet, hak]
      · rw [mapGet_cons_ne _ _ _ _ (Ne.symm hk2), mapGet_cons_ne _ _ _ _ (Ne.symm hk2)]
        exact ih

theorem not_mem_fst_of_mapGet_eq_none {α : Type} (l : List (String × α)) (k : String)
    (h : mapGet l k = none) : k ∉ l.map Prod.fst := by
  induction l with
  | nil => simp
  | cons hd tl ih =>
    obtain ⟨a, b⟩ := hd
    by_cases hk : a = k
    · subst hk
      simp [mapGet] at h
    · simp only [mapGet, hk, if_false] at h
      simp only [List.map_cons, List.mem_cons]
      push_neg
      exact ⟨fun hh => hk hh.symm, ih h⟩

/-! ## Lemmas about the allocation loop -/

theorem allocLoop_some_not_live (size : Nat) (isLive : String → Bool) (cand : Nat → String)
    (attempts : Nat) (k : String) :
    allocLoop size isLive cand attempts = some k → isLive k = false := by
  induction attempts using allocLoop.induct size isLive cand with
  | case1 x hx =>
    intro h
    rw [allocLoop] at h
    simp [hx] at h
  | case2 x key hx hl ih =>
    intro h
    rw [allocLoop] at h
    simp only [if_neg hx, hl, if_true] at h
    exact ih h
  | case3 x key hx hl =>
    intro h
    rw [allocLoop] at h
    simp only [if_neg hx, Bool.not_eq_true] at h hl
    rw [if_neg] at h
    · cases h
      exact hl
    · simp [hl]

theorem allocLoop_none_of_all_live (size : Nat) (isLive : String → Bool)
    (cand : Nat → String) (attempts : Nat)
    (h : ∀ i, attempts ≤ i → i ≤ size → isLive (cand i) = true) :
    allocLoop size isLive cand attempts = none := by
  induction attempts using allocLoop.induct size isLive cand with
  | case1 x hx =>
    rw [allocLoop]
    simp [hx]
  | case2 x key hx hl ih =>
    rw [allocLoop]
    simp only [if_neg hx, hl, if_true]
    exact ih (fun i h1 h2 => h i (by omega) h2)
  | case3 x key hx hl =>
    exact absurd (h x (Nat.le_refl x) (by omega)) hl

theorem allocLoop_first_free (size : Nat) (isLive : String → Bool) (cand : Nat → String)
    (attempts j : Nat) (haj : attempts ≤ j) (hj : j ≤ size)
    (hfree : isLive (cand j) = false)
    (hlive : ∀ i, attempts ≤ i → i < j → isLive (cand i) = true) :
    allocLoop size isLive cand attempts = some (cand j) := by
  induction attempts using allocLoop.induct size isLive cand with
  | case1 x hx => omega
  | case2 x key hx hl ih =>
    rw [allocLoop]
    simp only [if_neg hx, hl, if_true]
    have hxj : x ≠ j := by
      intro he
      have hl2 : isLive (cand x) = true := hl
      rw [he, hfree] at hl2
      cases hl2
    exact ih (by omega) (fun i h1 h2 => hlive i (by omega) h2)
  | case3 x key hx hl =>
    rw [allocLoop]
    simp only [if_neg hx, Bool.not_eq_true] at hl ⊢
    rw [if_neg (by simp [hl])]
    congr 1
    by_contra hne
    have : x < j ∨ j < x := by
      rcases Nat.lt_or_ge x j with h1 | h2
      · exact Or.inl h1
      · right
        rcases Nat.eq_or_lt_of_le h2 with h3 | h4
        · exact absurd (congrArg cand h3.symm) hne
        · exact h4
    rcases this with h1 | h2
    · exact absurd (hlive x (Nat.le_refl x) h1) (by simp [hl])
    · omega

/-! ## Lemmas about the key generator -/

theorem digitVal_digitChar : ∀ d : Nat, d < 36 → digitVal (digitChar d) = d := by
  decide

theorem getD_mem_of_lt {l : List Char} {d : Nat} (h : d < l.length) (c : Char) :
    l.getD d c ∈ l := by
  rw [List.getD_eq_getElem l c h]
  exact List.getElem_mem h

theorem natToStringBase_length_le (b : Nat) (hb : 2 ≤ b) :
    ∀ (len n : Nat), 1 ≤ len → n < b ^ len → (natToStringBase b n).length ≤ len := by
  intro len
  induction len with
  | zero => omega
  | succ m ih =>
    intro n h1 hn
    rw [natToStringBase]
    by_cases hnb : n < b
    · simp [hnb]
    · rw [if_neg hnb, dif_pos hb]
      simp only [List.length_append, List.length_singleton]
      have hm : 1 ≤ m := by
        by_contra h0
        have hm0 : m = 0 := by omega
        rw [hm0, pow_one] at hn
        omega
      have hdiv : n / b < b ^ m := by
        rw [Nat.div_lt_iff_lt_mul (by omega)]
        calc n < b ^ (m + 1) := hn
        _ = b ^ m * b := by rw [pow_succ]
      have := ih (n / b) hm hdiv
      omega

theorem natToStringBase_mem (b : Nat) (hb : 2 ≤ b) :
    ∀ (n : Nat), ∀ c ∈ natToStringBase b n, ∃ d, d < b ∧ c = digitChar d := by
  intro n
  induction n using Nat.strong_induction_on with
  | _ n ih =>
    intro c hc
    rw [natToStringBase] at hc
    by_cases hnb : n < b
    · rw [if_pos hnb] at hc
      simp only [List.mem_singleton] at hc
      exact ⟨n, hnb, hc⟩
    · rw [if_neg hnb, dif_pos hb] at hc
      rw [List.mem_append] at hc
      rcases hc with h | h
      · exact ih (n / b) (Nat.div_lt_self (by omega) (by omega)) c h
      · simp only [List.mem_singleton] at h
        exact ⟨n % b, Nat.mod_lt _ (by omega), h⟩

theorem padStart_length (len : Nat) (c : Char) (l : List Char) (h : l.length ≤ len) :
    (padStart len c l).length = len := by
  simp only [padStart, List.length_append, List.length_replicate]
  omega

/-! ## Claim theorems -/

/-- C8: for every valid alphabet/length configuration, `randomKey` returns
a string of exactly `len` characters, each drawn from `alphabet`. -/
theorem randomKey_wellformed (alphabet : List Char) (len rnd : Nat)
    (hb2 : 2 ≤ alphabet.length) (hb36 : alphabet.length ≤ 36) (hlen : 1 ≤ len)
    (hrnd : rnd < alphabet.length ^ len) :
    (randomKey alphabet len rnd).length = len ∧
      ∀ c ∈ (randomKey alphabet len rnd).data, c ∈ alphabet := by
  unfold randomKey
  have hdl : (natToStringBase alphabet.length rnd).length ≤ len :=
    natToStringBase_length_le alphabet.length hb2 len rnd hlen hrnd
  constructor
  · show (List.map _ (padStart len '0' (natToStringBase alphabet.length rnd))).length = len
    rw [List.length_map]
    exact padStart_length len '0' _ hdl
  · intro c hc
    rw [List.mem_map] at hc
    obtain ⟨chr, hchr, hcc⟩ := hc
    rw [padStart, List.mem_append] at hchr
    have hd : ∃ d, d < alphabet.length ∧ digitVal chr = d := by
      rcases hchr with h | h
      · rw [List.eq_of_mem_replicate h]
        refine ⟨0, by omega, ?_⟩
        have h0 : digitVal '0' = 0 := by decide
        exact h0
      · obtain ⟨d, hdb, hde⟩ := natToStringBase_mem alphabet.length hb2 rnd chr h
        refine ⟨d, hdb, ?_⟩
        rw [hde]
        exact digitVal_digitChar d (by omega)
    obtain ⟨d, hdb, hde⟩ := hd
    rw [← hcc, hde]
    exact getD_mem_of_lt hdb ' '

/-- Witness for C8 at the configured alphabet and length. -/
theorem randomKey_wellformed_witness :
    (randomKey keyChars.toList keyLength 5).length = keyLength ∧
      ∀ c ∈ (randomKey keyChars.toList keyLength 5).data, c ∈ keyChars.toList :=
  randomKey_wellformed keyChars.toList keyLength 5 (by decide) (by decide)
    (by decide) (by decide)

/-- C9 counterexample: the configured alphabet has 30 symbols, not 31, and
the key space `choices` is 810,000, not 923,521. -/
theorem keyspace_not_31_symbols :
    ¬ (keyChars.length = 31 ∧ choices = 923521) := by
  decide

/-- C9 amended: the key space is `alphabet ^ length` with a 30-symbol
alphabet and length 4, i.e. 810,000 codes. -/
theorem keyspace_size :
    choices = keyChars.length ^ keyLength ∧ keyChars.length = 30 ∧
      keyLength = 4 ∧ choices = 810000 := by
  decide

/-- C2. -/
theorem allocate_retry_budget :
    (∀ (size : Nat) (isLive : String → Bool) (cand : Nat → String),
       (∀ i, i ≤ size → isLive (cand i) = true) →
       allocLoop size isLive cand 0 = none) ∧
    (∀ (size j : Nat) (isLive : String → Bool) (cand : Nat → String),
       j ≤ size → isLive (cand j) = false →
       (∀ i, i < j → isLive (cand i) = true) →
       allocLoop size isLive cand 0 = some (cand j)) ∧
    (∀ (st : PartState) (agent : String) (now : Nat) (cand : Nat → String),
       st.keys = [("2", { created := 0, agent := "", fileId := none }),
                  ("3", { created := 0, agent := "", fileId := none })] →
       (∀ i, cand i = "2" ∨ cand i = "3") →
       generatePart st agent now cand = .error .serviceUnavailable) := by
  refine ⟨?_, ?_, ?_⟩
  · intro size isLive cand h
    exact allocLoop_none_of_all_live size isLive cand 0 (fun i _ h2 => h i h2)
  · intro size j isLive cand hj hfree hlive
    exact allocLoop_first_free size isLive cand 0 j (Nat.zero_le j) hj hfree
      (fun i _ h2 => hlive i h2)
  · intro st agent now cand hkeys hcand
    unfold generatePart
    have hall : allocLoop st.keys.length (fun k => mapHas st.keys k) cand 0 = none := by
      apply allocLoop_none_of_all_live
      intro i _ _
      rcases hcand i with h | h <;> rw [h, hkeys] <;> simp [mapHas, mapGet]
    rw [hall]

/-- Witness for C2. -/
theorem allocate_retry_budget_witness :
    generatePart ⟨[("2", ⟨0, "", none⟩), ("3", ⟨0, "", none⟩)], []⟩ "" 0
      (fun i => if i % 2 = 0 then "2" else "3") = .error .serviceUnavailable :=
  allocate_retry_budget.2.2 _ "" 0 _ rfl
    (fun i => by by_cases h : i % 2 = 0 <;> simp [h])

/-- C4. -/
theorem allocate_uniqueness :
    (∀ (st : PartState) (agent : String) (now : Nat) (cand : Nat → String)
       (key : String) (st2 : PartState),
       generatePart st agent now cand = .ok (key, st2) →
       mapHas st.keys key = false ∧
       (∀ c, mapHas st.keys c = true → key ≠ c) ∧
       mapGet st2.keys key = some { created := now, agent := agent, fileId := none } ∧
       ((st.keys.map Prod.fst).Nodup → (st2.keys.map Prod.fst).Nodup)) ∧
    (∀ (st : JsState) (agent : String) (now : Nat) (cand : Nat → String) (sid : Nat)
       (key : String) (st2 : JsState),
       generateJs st agent now cand sid = .ok (key, st2) →
       mapHas st.keys key = false ∧
       (∀ c, mapHas st.keys c = true → key ≠ c)) := by
  constructor
  · intro st agent now cand key st2 h
    unfold generatePart at h
    cases halloc : allocLoop st.keys.length (fun k => mapHas st.keys k) cand 0 with
    | none => rw [halloc] at h; cases h
    | some k =>
      rw [halloc] at h
      simp only [Except.ok.injEq, Prod.mk.injEq] at h
      obtain ⟨hkey, hst2⟩ := h
      subst hkey
      have hfree : mapHas st.keys k = false :=
        allocLoop_some_not_live _ _ _ _ _ halloc
      refine ⟨hfree, ?_, ?_, ?_⟩
      · intro c hc he
        rw [he] at hfree
        rw [hc] at hfree
        cases hfree
      · rw [← hst2]
        simp only
        rw [mapGet_mapSet, if_pos rfl]
      · intro hnd
        rw [← hst2]
        simp only
        unfold mapSet
        rw [if_neg (by simp [hfree])]
        rw [List.map_cons, List.nodup_cons]
        refine ⟨?_, hnd⟩
        apply not_mem_fst_of_mapGet_eq_none
        unfold mapHas at hfree
        exact Option.not_isSome_iff_eq_none.mp (by simp [hfree])
  · intro st agent now cand sid key st2 h
    unfold generateJs at h
    cases halloc : allocLoop st.keys.length (fun k => mapHas st.keys k) cand 0 with
    | none => rw [halloc] at h; cases h
    | some k =>
      rw [halloc] at h
      simp only [Except.ok.injEq, Prod.mk.injEq] at h
      obtain ⟨hkey, hst2⟩ := h
      subst hkey
      have hfree : mapHas st.keys k = false :=
        allocLoop_some_not_live _ _ _ _ _ halloc
      refine ⟨hfree, ?_⟩
      intro c hc he
      rw [he] at hfree
      rw [hc] at hfree
      cases hfree

/-- Witness for C4. -/
theorem allocate_uniqueness_witness :
    mapHas (⟨[("2", ⟨0, "", none⟩)], []⟩ : PartState).keys "3" = false ∧
      (∀ c, mapHas (⟨[("2", ⟨0, "", none⟩)], []⟩ : PartState).keys c = true → "3" ≠ c) ∧
      mapGet (⟨[("3", ⟨7, "ua", none⟩), ("2", ⟨0, "", none⟩)], []⟩ : PartState).keys "3" =
        some { created := 7, agent := "ua", fileId := none } ∧
      (((⟨[("2", ⟨0, "", none⟩)], []⟩ : PartState).keys.map Prod.fst).Nodup →
        ((⟨[("3", ⟨7, "ua", none⟩), ("2", ⟨0, "", none⟩)], []⟩ : PartState).keys.map Prod.fst).Nodup) :=
  allocate_uniqueness.1 ⟨[("2", ⟨0, "", none⟩)], []⟩ "ua" 7 (fun _ => "3") "3"
    ⟨[("3", ⟨7, "ua", none⟩), ("2", ⟨0, "", none⟩)], []⟩
    (by simp [generatePart, allocLoop, mapHas, mapGet, mapSet])

/-- C6. -/
theorem resolve_notFound_cases :
    (∀ (st : PartState) (key : String),
       mapGet st.keys key = none → downloadPart st key = .error .notFound) ∧
    (∀ (st : PartState) (key : String) (info : PartInfo),
       mapGet st.keys key = some info → info.fileId = none →
       downloadPart st key = .error .notFound) ∧
    (∀ (st : PartState) (key : String),
       downloadPart (expireCbPart key st) key = .error .notFound) ∧
    (∀ (st : JsState) (key : String),
       mapGet st.keys key = none → downloadJs st (some key) = .error .notFound) ∧
    (∀ (st : JsState) (key : String) (info : JsInfo),
       mapGet st.keys key = some info → info.file = none →
       downloadJs st (some key) = .error .notFound) ∧
    (∀ (st : JsState) (key : String) (info : JsInfo),
       mapGet st.keys key = some info →
       downloadJs (expireCbJs key info.sid st) (some key) = .error .notFound) := by
  refine ⟨?_, ?_, ?_, ?_, ?_, ?_⟩
  · intro st key h
    by_cases he : key.isEmpty <;> simp [downloadPart, h, he]
  · intro st key info h hf
    by_cases he : key.isEmpty <;> simp [downloadPart, h, hf, he]
  · intro st key
    by_cases he : key.isEmpty
    · simp [downloadPart, he]
    · cases h : mapGet st.keys key with
      | none => simp [downloadPart, expireCbPart, h, he]
      | some info =>
        simp [downloadPart, expireCbPart, h, he, mapGet_mapDelete]
  · intro st key h
    by_cases he : key.isEmpty <;> simp [downloadJs, h, he]
  · intro st key info h hf
    by_cases he : key.isEmpty <;> simp [downloadJs, h, hf, he]
  · intro st key info h
    by_cases he : key.isEmpty
    · simp [downloadJs, he]
    · simp [downloadJs, expireCbJs, h, he, mapGet_mapDelete]

/-- Witness for C6. -/
theorem resolve_notFound_cases_witness :
    downloadPart ⟨[], []⟩ "AB12" = .error .notFound ∧
      downloadPart ⟨[("AB12", ⟨0, "ua", none⟩)], []⟩ "AB12" = .error .notFound ∧
      downloadJs ⟨[("AB12", ⟨0, "ua", none, 7⟩)], []⟩ (some "AB12") = .error .notFound :=
  ⟨resolve_notFound_cases.1 ⟨[], []⟩ "AB12" rfl,
   resolve_notFound_cases.2.1 ⟨[("AB12", ⟨0, "ua", none⟩)], []⟩ "AB12" ⟨0, "ua", none⟩
     (by decide) rfl,
   resolve_notFound_cases.2.2.2.2.1 ⟨[("AB12", ⟨0, "ua", none, 7⟩)], []⟩ "AB12"
     ⟨0, "ua", none, 7⟩ (by decide) rfl⟩

/-- C7. -/
theorem expiry_removes_session_and_blob :
    (∀ (st : PartState) (key fid : String) (info : PartInfo),
       mapGet st.keys key = some info → info.fileId = some fid →
       mapGet (expireCbPart key st).keys key = none ∧
       mapGet (expireCbPart key st).files fid = none ∧
       downloadPart (expireCbPart key st) key = .error .notFound) ∧
    (∀ (st : JsState) (key : String) (sid : Nat) (info : JsInfo) (f : JsFile),
       mapGet st.keys key = some info → info.sid = sid → info.file = some f →
       st.uploads.count f.path ≤ 1 →
       mapGet (expireCbJs key sid st).keys key = none ∧
       f.path ∉ (expireCbJs key sid st).uploads ∧
       downloadJs (expireCbJs key sid st) (some key) = .error .notFound) := by
  constructor
  · intro st key fid info h hf
    refine ⟨?_, ?_, ?_⟩
    · simp [expireCbPart, h, mapGet_mapDelete]
    · simp only [expireCbPart, h, hf]
      by_cases hhas : mapHas st.files fid = true
      · simp [hhas, mapGet_mapDelete]
      · simp only [hhas, Bool.false_eq_true, if_false]
        unfold mapHas at hhas
        simpa using hhas
    · by_cases he : key.isEmpty
      · simp [downloadPart, he]
      · simp [downloadPart, expireCbPart, h, he, mapGet_mapDelete]
  · intro st key sid info f h hsid hf hcount
    refine ⟨?_, ?_, ?_⟩
    · simp [expireCbJs, h, hsid, mapGet_mapDelete]
    · simp only [expireCbJs, h, hsid, if_pos rfl, hf]
      have h0 : (st.uploads.erase f.path).count f.path = 0 := by
        rw [List.count_erase_self]
        omega
      exact List.count_eq_zero.mp h0
    · by_cases he : key.isEmpty
      · simp [downloadJs, he]
      · simp [downloadJs, expireCbJs, h, hsid, he, mapGet_mapDelete]

/-- Witness for C7. -/
theorem expiry_removes_session_and_blob_witness :
    (mapGet (expireCbPart "AB12"
        ⟨[("AB12", ⟨0, "ua", some "id1"⟩)],
         [("id1", ⟨[1, 2, 3], "book.epub", "application/epub+zip"⟩)]⟩).keys "AB12" = none ∧
      mapGet (expireCbPart "AB12"
        ⟨[("AB12", ⟨0, "ua", some "id1"⟩)],
         [("id1", ⟨[1, 2, 3], "book.epub", "application/epub+zip"⟩)]⟩).files "id1" = none ∧
      downloadPart (expireCbPart "AB12"
        ⟨[("AB12", ⟨0, "ua", some "id1"⟩)],
         [("id1", ⟨[1, 2, 3], "book.epub", "application/epub+zip"⟩)]⟩) "AB12" =
        .error .notFound) ∧
    (mapGet (expireCbJs "AB12" 7
        ⟨[("AB12", ⟨0, "ua", some ⟨"book.epub", "uploads/p1", "t1"⟩, 7⟩)],
         ["uploads/p1"]⟩).keys "AB12" = none ∧
      "uploads/p1" ∉ (expireCbJs "AB12" 7
        ⟨[("AB12", ⟨0, "ua", some ⟨"book.epub", "uploads/p1", "t1"⟩, 7⟩)],
         ["uploads/p1"]⟩).uploads ∧
      downloadJs (expireCbJs "AB12" 7
        ⟨[("AB12", ⟨0, "ua", some ⟨"book.epub", "uploads/p1", "t1"⟩, 7⟩)],
         ["uploads/p1"]⟩) (some "AB12") = .error .notFound) :=
  ⟨expiry_removes_session_and_blob.1 _ "AB12" "id1" ⟨0, "ua", some "id1"⟩ (by decide) rfl,
   expiry_removes_session_and_blob.2 _ "AB12" 7 ⟨0, "ua", some ⟨"book.epub", "uploads/p1", "t1"⟩, 7⟩
     ⟨"book.epub", "uploads/p1", "t1"⟩ (by decide) rfl rfl (by decide)⟩

/-- C5. -/
theorem evict_only_matching_session :
    (∀ (st : JsState) (key : String) (sid : Nat),
       (∀ info, mapGet st.keys key = some info → info.sid ≠ sid) →
       expireCbJs key sid st = st) ∧
    (∀ (st : JsState) (key : String) (sid : Nat) (info : JsInfo),
       mapGet st.keys key = some info → info.sid = sid →
       (expireCbJs key sid st).keys = mapDelete st.keys key) ∧
    (∀ (st : PartState) (key : String),
       mapGet st.keys key = none → expireCbPart key st = st) := by
  refine ⟨?_, ?_, ?_⟩
  · intro st key sid hno
    unfold expireCbJs
    cases h : mapGet st.keys key with
    | none => rfl
    | some info =>
      simp only
      rw [if_neg (hno info h)]
  · intro st key sid info h hsid
    simp [expireCbJs, h, hsid]
  · intro st key h
    unfold expireCbPart
    rw [h]

/-- Witness for C5. -/
theorem evict_only_matching_session_witness :
    expireCbJs "AB12" 8 ⟨[("AB12", ⟨0, "ua", none, 7⟩)], []⟩ =
        ⟨[("AB12", ⟨0, "ua", none, 7⟩)], []⟩ ∧
      expireCbPart "AB12" ⟨[], []⟩ = ⟨[], []⟩ :=
  ⟨evict_only_matching_session.1 _ "AB12" 8
     (fun info hinfo => by
       have : info = ⟨0, "ua", none, 7⟩ := by
         have h2 : mapGet ([("AB12", (⟨0, "ua", none, 7⟩ : JsInfo))]) "AB12" =
             some ⟨0, "ua", none, 7⟩ := by decide
         rw [h2] at hinfo
         exact (Option.some.inj hinfo).symm
       rw [this]
       decide),
   evict_only_matching_session.2.2 _ "AB12" rfl⟩

/-- C1 counterexample: in the plain-router variant, a second successful
bind leaves the first blob in the `files` map. -/
theorem second_bind_keeps_first_blob :
    (uploadPart
        ⟨[("AB12", ⟨0, "ua", some "id1"⟩)],
         [("id1", ⟨[1, 2, 3], "book.epub", "application/epub+zip"⟩)]⟩
        (some "AB12") (some ⟨[9, 9], "book2.pdf", "application/pdf"⟩) "id2").1 =
      .ok () ∧
    mapGet (uploadPart
        ⟨[("AB12", ⟨0, "ua", some "id1"⟩)],
         [("id1", ⟨[1, 2, 3], "book.epub", "application/epub+zip"⟩)]⟩
        (some "AB12") (some ⟨[9, 9], "book2.pdf", "application/pdf"⟩) "id2").2.files
        "id1" =
      some ⟨[1, 2, 3], "book.epub", "application/epub+zip"⟩ :=
  ⟨by rfl, by rfl⟩

/-- C1 amended. -/
theorem second_bind_replaces_reference :
    (∀ (st : JsState) (key : String) (info : JsInfo) (old : JsFile) (u : Upload)
       (path : String),
       mapGet st.keys key = some info → info.file = some old →
       toUpperStr key = key → key.isEmpty = false →
       allowedExtensions.contains (fileExtJs u.filename) = true →
       path ≠ old.path →
       (uploadJs st (some u) path (some key)).1 = .ok () ∧
       (uploadJs st (some u) path (some key)).2.uploads =
         path :: st.uploads.erase old.path ∧
       mapGet (uploadJs st (some u) path (some key)).2.keys key =
         some { info with file := some ⟨u.filename, path, u.contentType⟩ } ∧
       downloadJs (uploadJs st (some u) path (some key)).2 (some key) =
         .ok (path, u.filename) ∧
       (st.uploads.count old.path ≤ 1 →
         old.path ∉ (uploadJs st (some u) path (some key)).2.uploads)) ∧
    (∀ (st : PartState) (key : String) (info : PartInfo) (f2 : PartFile)
       (fid2 e : String),
       mapGet st.keys key = some info → toUpperStr key = key → key.isEmpty = false →
       fileExtPart f2.name = some e →
       (e.isEmpty || !(allowedExtensions.contains e)) = false →
       (uploadPart st (some key) (some f2) fid2).1 = .ok () ∧
       downloadPart (uploadPart st (some key) (some f2) fid2).2 key = .ok f2 ∧
       ∀ fid, fid ≠ fid2 →
         mapGet (uploadPart st (some key) (some f2) fid2).2.files fid =
           mapGet st.files fid) := by
  constructor
  · intro st key info old u path hinfo hold hup hne hext hpath
    have hbe : ¬((path == old.path) = true) := by simp [hpath]
    have hres : uploadJs st (some u) path (some key) =
        (.ok (), ⟨mapSet st.keys key { info with file := some ⟨u.filename, path, u.contentType⟩ },
                  path :: st.uploads.erase old.path⟩) := by
      unfold uploadJs handleUpload
      simp only [hext, Bool.not_true, Bool.false_eq_true, if_false, Option.map_some',
        hup, hne, hinfo, hold, List.erase_cons_tail hbe]
    refine ⟨by rw [hres], by rw [hres], ?_, ?_, ?_⟩
    · rw [hres]
      simp only
      rw [mapGet_mapSet, if_pos rfl]
    · rw [hres]
      simp only [downloadJs, hne]
      rw [mapGet_mapSet, if_pos rfl]
      simp [hne]
    · intro hcount
      rw [hres]
      simp only [List.mem_cons]
      push_neg
      refine ⟨Ne.symm hpath, ?_⟩
      have h0 : (st.uploads.erase old.path).count old.path = 0 := by
        rw [List.count_erase_self]
        omega
      exact List.count_eq_zero.mp h0
  · intro st key info f2 fid2 e hinfo hup hne hextp hcond
    have hres : uploadPart st (some key) (some f2) fid2 =
        (.ok (), ⟨mapSet st.keys key { info with fileId := some fid2 },
                  mapSet st.files fid2 ⟨f2.data, f2.name, f2.type⟩⟩) := by
      unfold uploadPart
      simp only [Option.map_some', hup, hne, hinfo, hextp, hcond, Bool.false_eq_true,
        if_false]
    refine ⟨by rw [hres], ?_, ?_⟩
    · rw [hres]
      simp only [downloadPart, hne]
      rw [mapGet_mapSet, if_pos rfl]
      simp only
      rw [mapGet_mapSet, if_pos rfl]
      simp [hne]
    · intro fid hfid
      rw [hres]
      simp only
      rw [mapGet_mapSet, if_neg hfid]

/-- Witness for C1 amended. -/
theorem second_bind_replaces_reference_witness :
    (uploadPart ⟨[("AB12", ⟨0, "ua", some "id1"⟩)],
        [("id1", ⟨[1, 2, 3], "book.epub", "application/epub+zip"⟩)]⟩
      (some "AB12") (some ⟨[9, 9], "book2.pdf", "application/pdf"⟩) "id2").1 = .ok () ∧
    downloadPart (uploadPart ⟨[("AB12", ⟨0, "ua", some "id1"⟩)],
        [("id1", ⟨[1, 2, 3], "book.epub", "application/epub+zip"⟩)]⟩
      (some "AB12") (some ⟨[9, 9], "book2.pdf", "application/pdf"⟩) "id2").2 "AB12" =
      .ok ⟨[9, 9], "book2.pdf", "application/pdf"⟩ ∧
    ∀ fid, fid ≠ "id2" →
      mapGet (uploadPart ⟨[("AB12", ⟨0, "ua", some "id1"⟩)],
          [("id1", ⟨[1, 2, 3], "book.epub", "application/epub+zip"⟩)]⟩
        (some "AB12") (some ⟨[9, 9], "book2.pdf", "application/pdf"⟩) "id2").2.files fid =
        mapGet [("id1", (⟨[1, 2, 3], "book.epub", "application/epub+zip"⟩ : PartFile))] fid :=
  second_bind_replaces_reference.2
    ⟨[("AB12", ⟨0, "ua", some "id1"⟩)],
     [("id1", ⟨[1, 2, 3], "book.epub", "application/epub+zip"⟩)]⟩
    "AB12" ⟨0, "ua", some "id1"⟩ ⟨[9, 9], "book2.pdf", "application/pdf"⟩ "id2" "pdf"
    (by decide) (by decide) (by decide) (by decide) (by decide)

/-- C3 counterexample: an upload with a disallowed media type and an
oversize payload succeeds, is stored, and is served by resolve. -/
theorem upload_type_and_size_unchecked :
    allowedTypes.contains "application/x-evil" = false ∧
    maxFileSize < (List.replicate (maxFileSize + 1) 0).length ∧
    (uploadPart ⟨[("AB12", ⟨0, "ua", none⟩)], []⟩ (some "AB12")
        (some ⟨List.replicate (maxFileSize + 1) 0, "book.epub", "application/x-evil"⟩)
        "id1").1 = .ok () ∧
    downloadPart (uploadPart ⟨[("AB12", ⟨0, "ua", none⟩)], []⟩ (some "AB12")
        (some ⟨List.replicate (maxFileSize + 1) 0, "book.epub", "application/x-evil"⟩)
        "id1").2 "AB12" =
      .ok ⟨List.replicate (maxFileSize + 1) 0, "book.epub", "application/x-evil"⟩ := by
  refine ⟨by decide, ?_, by rfl, by rfl⟩
  rw [List.length_replicate]
  omega

/-- C3 amended. -/
theorem upload_validates_extension_only :
    (∀ (st : PartState) (keyIn : Option String) (f : PartFile) (fid e : String),
       fileExtPart f.name = some e →
       (e.isEmpty || !(allowedExtensions.contains e)) = true →
       (uploadPart st keyIn (some f) fid).2 = st ∧
       ∃ m, (uploadPart st keyIn (some f) fid).1 = .error (.badRequest m)) ∧
    (∀ (st : JsState) (u : Upload) (path : String) (keyIn : Option String),
       allowedExtensions.contains (fileExtJs u.filename) = false →
       uploadJs st (some u) path keyIn =
         (.error (.badRequest "Invalid file type"), st)) := by
  constructor
  · intro st keyIn f fid e hext hcond
    cases keyIn with
    | none => exact ⟨rfl, "Invalid key", rfl⟩
    | some k =>
      unfold uploadPart
      simp only [Option.map_some']
      by_cases hk : (toUpperStr k).isEmpty = true
      · simp [hk]
      · simp only [hk, Bool.false_eq_true, if_false]
        cases hlook : mapGet st.keys (toUpperStr k) with
        | none => simp
        | some info =>
          simp only [hext]
          rw [if_pos hcond]
          exact ⟨rfl, "Invalid file type", rfl⟩
  · intro st u path keyIn hext
    have hmem : fileExtJs u.filename ∉ allowedExtensions := by simpa using hext
    unfold uploadJs handleUpload
    simp [hmem]

/-- Witness for C3 amended. -/
theorem upload_validates_extension_only_witness :
    ((uploadPart ⟨[("AB12", ⟨0, "ua", none⟩)], []⟩ (some "AB12")
        (some ⟨[1], "malware.exe", "text/plain"⟩) "id1").2 =
      ⟨[("AB12", ⟨0, "ua", none⟩)], []⟩ ∧
      ∃ m, (uploadPart ⟨[("AB12", ⟨0, "ua", none⟩)], []⟩ (some "AB12")
        (some ⟨[1], "malware.exe", "text/plain"⟩) "id1").1 = .error (.badRequest m)) ∧
    uploadJs ⟨[], []⟩ (some ⟨"malware.exe", "text/plain"⟩) "uploads/p1" none =
      (.error (.badRequest "Invalid file type"), ⟨[], []⟩) :=
  ⟨upload_validates_extension_only.1 ⟨[("AB12", ⟨0, "ua", none⟩)], []⟩ (some "AB12")
     ⟨[1], "malware.exe", "text/plain"⟩ "id1" "exe" (by decide) (by decide),
   upload_validates_extension_only.2 ⟨[], []⟩ ⟨"malware.exe", "text/plain"⟩
     "uploads/p1" none (by decide)⟩

/-- C10. -/
theorem js_failed_upload_stores_file :
    ∀ (st : JsState) (u : Upload) (path : String) (keyIn : Option String),
      allowedExtensions.contains (fileExtJs u.filename) = true →
      (keyIn = none ∨ ∃ k, keyIn = some k ∧
        ((toUpperStr k).isEmpty = true ∨ mapGet st.keys (toUpperStr k) = none)) →
      (uploadJs st (some u) path keyIn).1 = .error (.badRequest "Invalid key") ∧
      (uploadJs st (some u) path keyIn).2.uploads = path :: st.uploads ∧
      (uploadJs st (some u) path keyIn).2.keys = st.keys ∧
      ((∀ (k2 : String) (i : JsInfo) (f : JsFile),
          mapGet st.keys k2 = some i → i.file = some f → f.path ≠ path) →
        ∀ (key2 : String) (sid : Nat),
          path ∈ (expireCbJs key2 sid (uploadJs st (some u) path keyIn).2).uploads) := by
  intro st u path keyIn hext hkey
  have hres : uploadJs st (some u) path keyIn =
      (.error (.badRequest "Invalid key"), ⟨st.keys, path :: st.uploads⟩) := by
    rcases hkey with h | ⟨k, hk, hbad⟩
    · subst h
      unfold uploadJs handleUpload
      simp only [hext, Bool.not_true, Bool.false_eq_true, if_false, Option.map_none']
    · subst hk
      rcases hbad with hb | hb
      · unfold uploadJs handleUpload
        simp only [hext, Bool.not_true, Bool.false_eq_true, if_false, Option.map_some', hb,
          if_true]
      · unfold uploadJs handleUpload
        by_cases hk2 : (toUpperStr k).isEmpty = true
        · simp only [hext, Bool.not_true, Bool.false_eq_true, if_false, Option.map_some',
            hk2, if_true]
        · simp only [hext, Bool.not_true, Bool.false_eq_true, if_false, Option.map_some',
            hk2, hb]
  refine ⟨by rw [hres], by rw [hres], by rw [hres], ?_⟩
  intro hnoref key2 sid
  rw [hres]
  simp only
  cases hlook : mapGet st.keys key2 with
  | none => simp [expireCbJs, hlook]
  | some i =>
    by_cases hsid : i.sid = sid
    · cases hf : i.file with
      | none => simp [expireCbJs, hlook, hsid, hf]
      | some f =>
        have hfp : ¬((path == f.path) = true) := by
          simp only [beq_iff_eq]
          exact fun he => (hnoref key2 i f hlook hf) (he.symm ▸ rfl)
        simp [expireCbJs, hlook, hsid, hf, List.erase_cons_tail hfp]
    · simp [expireCbJs, hlook, hsid]

/-- Witness for C10. -/
theorem js_failed_upload_stores_file_witness :
    (uploadJs ⟨[], []⟩ (some ⟨"book.epub", "application/epub+zip"⟩) "uploads/u1" (some "NOPE")).1 =
        .error (.badRequest "Invalid key") ∧
      (uploadJs ⟨[], []⟩ (some ⟨"book.epub", "application/epub+zip"⟩) "uploads/u1" (some "NOPE")).2.uploads =
        "uploads/u1" :: ([] : List String) ∧
      (uploadJs ⟨[], []⟩ (some ⟨"book.epub", "application/epub+zip"⟩) "uploads/u1" (some "NOPE")).2.keys =
        ([] : List (String × JsInfo)) ∧
      ((∀ (k2 : String) (i : JsInfo) (f : JsFile),
          mapGet ([] : List (String × JsInfo)) k2 = some i → i.file = some f →
          f.path ≠ "uploads/u1") →
        ∀ (key2 : String) (sid : Nat),
          "uploads/u1" ∈ (expireCbJs key2 sid
            (uploadJs ⟨[], []⟩ (some ⟨"book.epub", "application/epub+zip"⟩) "uploads/u1"
              (some "NOPE")).2).uploads) :=
  js_failed_upload_stores_file ⟨[], []⟩ ⟨"book.epub", "application/epub+zip"⟩ "uploads/u1"
    (some "NOPE") (by decide) (Or.inr ⟨"NOPE", rfl, Or.inr (by decide)⟩)

end Send2Ereader
